import Mathlib

/-!
Shallow embedding of the rust-basic-api repository: configuration loading
(src/config.rs), the connection-pool lifecycle and migrations
(src/repository/mod.rs), the health endpoint and startup sequence
(src/main.rs), and the error-to-HTTP mapping (src/error.rs).

Environment reads, database I/O and the async runtime are modelled by
explicit oracle records (EnvMap, DbWorld, QueryWorld): each suspending
operation of the Rust code becomes a pure function of the oracle, and the
database-side migration ledger is threaded as explicit state.
-/

/- String literals used by the code, bound to names once. -/

def kDatabaseUrl : String := "DATABASE_URL"

def kServerPort : String := "SERVER_PORT"

def kDbMaxConnections : String := "DB_MAX_CONNECTIONS"

def kDbMinConnections : String := "DB_MIN_CONNECTIONS"

def kDbConnectTimeoutSecs : String := "DB_CONNECT_TIMEOUT_SECS"

def kDbIdleTimeoutSecs : String := "DB_IDLE_TIMEOUT_SECS"

def kDbAcquireTimeoutSecs : String := "DB_ACQUIRE_TIMEOUT_SECS"

def d3000 : String := "3000"

def d10 : String := "10"

def d1 : String := "1"

def d5 : String := "5"

def d300 : String := "300"

def d30 : String := "30"

/-- Process environment after the best-effort dotenvy merge: a map from
variable names to optional (unicode) values. `env::var` returns an error exactly
when the key is absent. -/
def EnvMap : Type := String → Option String

/-- The error type of `std::env::var` restricted to string-valued
environments (`NotUnicode` cannot arise in this model). -/
inductive VarError where
  | notPresent
deriving Repr, DecidableEq

/-- Rust `str::parse` for an unsigned integer type: an optional leading
plus sign followed by one or more ASCII digits; anything else is an error.
No whitespace is trimmed. -/
def parseRustNat (s : String) : Option Nat :=
  let cs : List Char :=
    match s.data with
    | '+' :: rest => rest
    | cs => cs
  if !cs.isEmpty && cs.all Char.isDigit then
    some (cs.foldl (fun acc c => 10 * acc + (c.toNat - 48)) 0)
  else
    none

/-- Rust `str::parse::<uN>`: the decimal parse above, failing additionally
when the value overflows the target width (`bound` is the maximal value). -/
def parseBounded (bound : Nat) (s : String) : Option Nat :=
  (parseRustNat s).bind fun n => if n ≤ bound then some n else none

def u16Max : Nat := 65535

def u32Max : Nat := 4294967295

def u64Max : Nat := 18446744073709551615

/-- The `Config` struct of src/config.rs. Machine integers are carried as
Nat with their width enforced at parse time. -/
structure Config where
  database_url : String
  server_port : Nat
  db_max_connections : Nat
  db_min_connections : Nat
  db_connect_timeout_secs : Nat
  db_idle_timeout_secs : Nat
  db_acquire_timeout_secs : Nat
deriving Repr, DecidableEq

/-- The uniform pattern of every optional field of `Config::from_env`:
`env::var(key).unwrap_or_else(default-string).parse().unwrap_or(default)`. -/
def optValue (env : EnvMap) (key dfltStr : String) (bound dfltN : Nat) : Nat :=
  (parseBounded bound ((env key).getD dfltStr)).getD dfltN

/-- Function `Config::from_env` of src/config.rs: `DATABASE_URL` is required (its
absence is the only error), every other field falls back to its default
string when absent and to its default number when the parse fails. The
dotenvy merge is folded into the `env` argument. -/
def Config.from_env (env : EnvMap) : Except VarError Config :=
  match env kDatabaseUrl with
  | none => .error .notPresent
  | some database_url =>
    .ok {
      database_url := database_url
      server_port := optValue env kServerPort d3000 u16Max 3000
      db_max_connections := optValue env kDbMaxConnections d10 u32Max 10
      db_min_connections := optValue env kDbMinConnections d1 u32Max 1
      db_connect_timeout_secs := optValue env kDbConnectTimeoutSecs d5 u64Max 5
      db_idle_timeout_secs := optValue env kDbIdleTimeoutSecs d300 u64Max 300
      db_acquire_timeout_secs := optValue env kDbAcquireTimeoutSecs d30 u64Max 30 }

/- Migration machinery: the embedded migration set of `sqlx::migrate!` and
the versioned ledger (`_sqlx_migrations`) kept in the database. -/

/-- One embedded migration: its version and the checksum of its SQL. -/
structure Migration where
  version : Nat
  checksum : Nat
deriving Repr, DecidableEq

/-- The migration ledger persisted in the database, in application order. -/
structure Ledger where
  entries : List Migration
deriving Repr, DecidableEq

/-- Errors of the sqlx migrator: a recorded migration whose checksum no
longer matches the embedded one, or a migration whose SQL fails to apply. -/
inductive MigError where
  | versionMismatch (version : Nat)
  | applyFailed (version : Nat)
deriving Repr, DecidableEq

/-- Core loop of `sqlx::migrate!().run`: walk the embedded migrations in
embedding order; a version already recorded in the ledger is skipped after
a checksum comparison (mismatch is an error), an unrecorded one is applied
(success decided by the database oracle `applyOk`) and appended to the
ledger. Returns the final ledger and the versions newly applied, in order. -/
def runMigratorFrom (applyOk : Nat → Bool) :
    List Migration → Ledger → List Nat → Except MigError (Ledger × List Nat)
  | [], led, newly => .ok (led, newly.reverse)
  | m :: rest, led, newly =>
    match led.entries.find? (fun a => a.version == m.version) with
    | some a =>
      if a.checksum == m.checksum then
        runMigratorFrom applyOk rest led newly
      else
        .error (.versionMismatch m.version)
    | none =>
      if applyOk m.version then
        runMigratorFrom applyOk rest ⟨led.entries ++ [m]⟩ (m.version :: newly)
      else
        .error (.applyFailed m.version)

/-- Run of `sqlx::migrate!().run(&pool)` against a database whose ledger is `led`. -/
def runMigrator (applyOk : Nat → Bool) (migs : List Migration) (led : Ledger) :
    Except MigError (Ledger × List Nat) :=
  runMigratorFrom applyOk migs led []

/- Pool model: the options record of `PgPoolOptions` and the pool handle. -/

/-- The pool configuration assembled by `PgPoolOptions::new()` with the
builder calls of src/repository/mod.rs (timeouts in seconds). -/
structure PoolOptions where
  max_connections : Nat
  min_connections : Nat
  acquire_timeout_secs : Nat
  idle_timeout_secs : Option Nat
deriving Repr, DecidableEq

/-- A `PgPool` handle, carrying the options it was built with. -/
structure PgPool where
  options : PoolOptions
deriving Repr, DecidableEq

/-- Oracle for the database side of startup: how long the initial connect
takes, whether it succeeds once it completes, whether applying a given
migration version succeeds, and the current migration ledger. -/
structure DbWorld where
  connect_secs : Nat
  connect_ok : Bool
  apply_ok : Nat → Bool
  ledger : Ledger

/-- Failure cases of pool construction in src/repository/mod.rs: the
`tokio::time::timeout` race elapsing, the connect itself failing, or a
migration error. -/
inductive StartupError where
  | timeout
  | connectFailed
  | migration (e : MigError)
deriving Repr, DecidableEq

/-- Function `init_pool_and_migrate` of src/repository/mod.rs: build the options
from the config, race the connect against `db_connect_timeout_secs`
(elapsing yields the timeout error), then run the embedded migrations
before the pool is returned. `migs` stands for the compile-time embedded
migration list of `sqlx::migrate!`. The returned ledger and newly-applied
versions expose the database state the Rust code leaves behind. -/
def init_pool_and_migrate (migs : List Migration) (config : Config) (w : DbWorld) :
    Except StartupError (PgPool × Ledger × List Nat) :=
  let options : PoolOptions :=
    { max_connections := config.db_max_connections
      min_connections := config.db_min_connections
      acquire_timeout_secs := config.db_acquire_timeout_secs
      idle_timeout_secs := some config.db_idle_timeout_secs }
  if config.db_connect_timeout_secs < w.connect_secs then
    .error .timeout
  else if w.connect_ok then
    match runMigrator w.apply_ok migs w.ledger with
    | .error e => .error (.migration e)
    | .ok (led, newly) => .ok (⟨options⟩, led, newly)
  else
    .error .connectFailed

/- Query-time model: acquiring a connection from the pool and running the
trivial probe query. -/

/-- Oracle for one query against the pool: how long the acquire takes,
whether the query itself executes, and the rows-affected count the
database would report. -/
structure QueryWorld where
  acquire_secs : Nat
  query_ok : Bool
  rows_affected : Nat
deriving Repr, DecidableEq

/-- Errors surfaced by `sqlx::query(..).execute(&pool)`: the pool acquire
timing out, or the query failing on the connection. -/
inductive SqlxError where
  | poolTimedOut
  | queryFailed
deriving Repr, DecidableEq

/-- Result record of a successful `execute` (the `PgQueryResult`). -/
structure PgQueryResult where
  rows_affected : Nat
deriving Repr, DecidableEq

/-- Call `sqlx::query(SELECT 1).execute(&pool)`: acquire a connection — bounded
by the acquire timeout the pool was built with — then execute the query on
it, returning the query result on success. -/
def executeQuery (pool : PgPool) (w : QueryWorld) : Except SqlxError PgQueryResult :=
  if pool.options.acquire_timeout_secs < w.acquire_secs then
    .error .poolTimedOut
  else if w.query_ok then
    .ok ⟨w.rows_affected⟩
  else
    .error .queryFailed

/-- Function `db_ping` of src/repository/mod.rs: run the trivial query and discard
its result, returning only unit on success. -/
def db_ping (pool : PgPool) (w : QueryWorld) : Except SqlxError Unit :=
  match executeQuery pool w with
  | .ok _ => .ok ()
  | .error e => .error e

/- HTTP surface of src/main.rs. -/

/-- Application state of src/main.rs, holding the shared pool handle. -/
structure AppState where
  pool : PgPool
deriving Repr, DecidableEq

/-- An HTTP response, reduced to status code and body. -/
structure HttpResponse where
  status : Nat
  body : String
deriving Repr, DecidableEq

def sOK : String := "OK"

def sDbConnFailed : String := "Database connection failed"

/-- The `health_check` handler body of src/main.rs: run `SELECT 1` against
the pool and choose one of the two fixed reply strings. -/
def health_check (state : AppState) (w : QueryWorld) : String :=
  match executeQuery state.pool w with
  | .ok _ => sOK
  | .error _ => sDbConnFailed

/-- Axum renders a handler returning a static string as a 200 response
whose body is that string. -/
def strIntoResponse (s : String) : HttpResponse :=
  ⟨200, s⟩

/-- The full `GET /health` response of src/main.rs: the handler string put
through the axum string renderer. -/
def healthEndpoint (state : AppState) (w : QueryWorld) : HttpResponse :=
  strIntoResponse (health_check state w)

/- Error-to-HTTP mapping of src/error.rs. -/

/-- The `AppError` enum of src/error.rs; the payloads are the display
strings of the wrapped errors. -/
inductive AppError where
  | database (e : String)
  | config (msg : String)
  | internal (msg : String)
deriving Repr, DecidableEq

def sDatabaseError : String := "Database error"

def sConfigurationError : String := "Configuration error"

def sInternalServerError : String := "Internal server error"

/-- Serialization of `json!(\x7b "error": m \x7d)`. -/
def jsonErrorBody (m : String) : String :=
  "\x7b\"error\":\"" ++ m ++ "\"\x7d"

/-- Method `AppError::into_response` of src/error.rs: every variant maps to
status 500 with a fixed message, placed in a JSON error envelope; the
wrapped payload is only logged, never rendered. -/
def AppError.into_response : AppError → HttpResponse
  | .database _ => ⟨500, jsonErrorBody sDatabaseError⟩
  | .config _ => ⟨500, jsonErrorBody sConfigurationError⟩
  | .internal _ => ⟨500, jsonErrorBody sInternalServerError⟩

/- Startup sequence of src/main.rs. -/

/-- Modelled from the spec: `repository::create_pool` is called by `main`
and by the test utilities but its definition is not among the source
files. Per the spec it builds a bounded pool of database connections from
the connection string, failing when the database is unreachable; no
Settings value reaches it, so its pool carries the documented default
knobs (max 10, min 1, acquire 30, idle 300). -/
def create_pool (_url : String) (w : DbWorld) : Except StartupError PgPool :=
  if w.connect_ok then
    .ok ⟨{ max_connections := 10
           min_connections := 1
           acquire_timeout_secs := 30
           idle_timeout_secs := some 300 }⟩
  else
    .error .connectFailed

/-- Observable steps of `main`, in the order the code performs them. -/
inductive Event where
  | loadConfig
  | createPool
  | runMigrations
  | bindSocket
  | serve
deriving Repr, DecidableEq

/-- The startup phase at which `main` returned its fatal error. -/
inductive Phase where
  | configPhase
  | poolPhase
  | migrationPhase
  | bindPhase
deriving Repr, DecidableEq

/-- The state the server enters once `axum::serve` starts: the listening
port, the shared pool, and the database ledger the handlers observe. -/
structure ServerState where
  port : Nat
  pool : PgPool
  ledger : Ledger
deriving Repr, DecidableEq

/-- Oracle for a whole run of `main`: the database world plus whether the
TCP bind succeeds. -/
structure MainWorld where
  db : DbWorld
  bind_ok : Bool

/-- The `main` function of src/main.rs as a sequential process: load the
config, create the pool, run the embedded migrations, bind the socket and
serve — each `?` turning a failure into an early fatal return. The result
pairs the trace of steps actually performed with either the fatal phase
(the process then exits non-zero) or the serving state. -/
def runMain (migs : List Migration) (env : EnvMap) (w : MainWorld) :
    List Event × Except Phase ServerState :=
  match Config.from_env env with
  | .error _ => ([.loadConfig], .error .configPhase)
  | .ok config =>
    match create_pool config.database_url w.db with
    | .error _ => ([.loadConfig, .createPool], .error .poolPhase)
    | .ok pool =>
      match runMigrator w.db.apply_ok migs w.db.ledger with
      | .error _ =>
        ([.loadConfig, .createPool, .runMigrations], .error .migrationPhase)
      | .ok (led, _) =>
        if w.bind_ok then
          ([.loadConfig, .createPool, .runMigrations, .bindSocket, .serve],
            .ok ⟨config.server_port, pool, led⟩)
        else
          ([.loadConfig, .createPool, .runMigrations, .bindSocket], .error .bindPhase)

/-- Process exit status: a Rust `main` returning an error exits with
status 1, a clean return exits 0. -/
def exitCode (r : Except Phase ServerState) : Nat :=
  match r with
  | .ok _ => 0
  | .error _ => 1

/-- Modelled from the spec: the startup path that hands the pool built by
`init_pool_and_migrate` to the HTTP surface is not among the source files
(the source `main` uses the `create_pool` variant); per the spec the
process serves HTTP exactly when build-pool-and-migrate succeeded. -/
def startupServes (migs : List Migration) (config : Config) (w : DbWorld) : Bool :=
  match init_pool_and_migrate migs config w with
  | .ok _ => true
  | .error _ => false

/- Lemmas about the migrator loop. -/

theorem find?_append_left {α : Type} {p : α → Bool} {l1 l2 : List α} {a : α}
    (h : l1.find? p = some a) : (l1 ++ l2).find? p = some a := by
  rw [List.find?_append, h]
  rfl

theorem find?_append_right {α : Type} {p : α → Bool} {l1 l2 : List α}
    (h : l1.find? p = none) : (l1 ++ l2).find? p = l2.find? p := by
  rw [List.find?_append, h]
  rfl

/-- A ledger covers a migration when it records its version with a
matching checksum, as seen by the lookup the migrator performs. -/
def Ledger.covers (led : Ledger) (m : Migration) : Prop :=
  ∃ a, led.entries.find? (fun x => x.version == m.version) = some a
    ∧ a.checksum = m.checksum

theorem covers_append {led : Ledger} {m : Migration} (tail : List Migration)
    (h : led.covers m) : Ledger.covers ⟨led.entries ++ tail⟩ m := by
  obtain ⟨a, hf, hc⟩ := h
  exact ⟨a, find?_append_left hf, hc⟩

/-- The migrator only ever appends to the ledger. -/
theorem runMigratorFrom_extends (applyOk : Nat → Bool) :
    ∀ (migs : List Migration) (led : Ledger) (acc : List Nat) (led2 : Ledger)
      (newly : List Nat),
      runMigratorFrom applyOk migs led acc = .ok (led2, newly) →
      ∃ tail, led2.entries = led.entries ++ tail := by
  intro migs
  induction migs with
  | nil =>
    intro led acc led2 newly h
    rw [runMigratorFrom] at h
    injection h with h2
    injection h2 with hl hn
    exact ⟨[], by rw [← hl]; simp⟩
  | cons m0 rest ih =>
    intro led acc led2 newly h
    rw [runMigratorFrom] at h
    split at h
    · split at h
      · exact ih led acc led2 newly h
      · exact Except.noConfusion h
    · split at h
      · obtain ⟨tail, ht⟩ := ih ⟨led.entries ++ [m0]⟩ (m0.version :: acc) led2 newly h
        exact ⟨m0 :: tail, by rw [ht]; simp⟩
      · exact Except.noConfusion h

/-- After a successful run, the ledger covers every embedded migration. -/
theorem runMigratorFrom_covers (applyOk : Nat → Bool) :
    ∀ (migs : List Migration) (led : Ledger) (acc : List Nat) (led2 : Ledger)
      (newly : List Nat),
      runMigratorFrom applyOk migs led acc = .ok (led2, newly) →
      ∀ m ∈ migs, led2.covers m := by
  intro migs
  induction migs with
  | nil =>
    intro led acc led2 newly _ m hm
    exact absurd hm (List.not_mem_nil m)
  | cons m0 rest ih =>
    intro led acc led2 newly h m hm
    rw [runMigratorFrom] at h
    split at h
    · rename_i a heq
      split at h
      · rename_i hc
        rcases List.mem_cons.mp hm with hm0 | hmr
        · obtain ⟨tail, ht⟩ := runMigratorFrom_extends applyOk rest led acc led2 newly h
          subst hm0
          refine ⟨a, ?_, by simpa using hc⟩
          rw [ht]
          exact find?_append_left heq
        · exact ih led acc led2 newly h m hmr
      · exact Except.noConfusion h
    · rename_i heq
      split at h
      · rcases List.mem_cons.mp hm with hm0 | hmr
        · obtain ⟨tail, ht⟩ :=
            runMigratorFrom_extends applyOk rest ⟨led.entries ++ [m0]⟩
              (m0.version :: acc) led2 newly h
          subst hm0
          refine ⟨m, ?_, rfl⟩
          rw [ht]
          have h1 : (led.entries ++ [m]).find? (fun x => x.version == m.version)
              = some m := by
            rw [find?_append_right heq]
            exact List.find?_cons_of_pos _ (by simp)
          exact find?_append_left h1
        · exact ih _ _ _ _ h m hmr
      · exact Except.noConfusion h

/-- Running the migrator against a ledger that already covers every
embedded migration changes nothing, applies nothing and cannot fail. -/
theorem runMigratorFrom_of_covers (applyOk : Nat → Bool) :
    ∀ (migs : List Migration) (led : Ledger) (acc : List Nat),
      (∀ m ∈ migs, led.covers m) →
      runMigratorFrom applyOk migs led acc = .ok (led, acc.reverse) := by
  intro migs
  induction migs with
  | nil =>
    intro led acc _
    rw [runMigratorFrom]
  | cons m0 rest ih =>
    intro led acc hcov
    obtain ⟨a, hf, hc⟩ := hcov m0 (List.mem_cons_self m0 rest)
    have hb : (a.checksum == m0.checksum) = true := by simp [hc]
    simp only [runMigratorFrom, hf, hb, if_true]
    exact ih led acc fun m hm => hcov m (List.mem_cons_of_mem m0 hm)

/-- The versions newly applied by a run form a sublist of the embedded
versions, in embedding order. -/
theorem runMigratorFrom_newly_sublist (applyOk : Nat → Bool) :
    ∀ (migs : List Migration) (led : Ledger) (acc : List Nat) (led2 : Ledger)
      (newly : List Nat),
      runMigratorFrom applyOk migs led acc = .ok (led2, newly) →
      ∃ sub, List.Sublist sub (migs.map Migration.version) ∧ newly = acc.reverse ++ sub := by
  intro migs
  induction migs with
  | nil =>
    intro led acc led2 newly h
    rw [runMigratorFrom] at h
    injection h with h2
    injection h2 with hl hn
    exact ⟨[], List.nil_sublist _, by rw [← hn]; simp⟩
  | cons m0 rest ih =>
    intro led acc led2 newly h
    rw [runMigratorFrom] at h
    split at h
    · split at h
      · obtain ⟨sub, hs, he⟩ := ih _ _ _ _ h
        exact ⟨sub, hs.cons m0.version, he⟩
      · exact Except.noConfusion h
    · split at h
      · obtain ⟨sub, hs, he⟩ := ih _ _ _ _ h
        refine ⟨m0.version :: sub, hs.cons₂ m0.version, ?_⟩
        rw [he]
        simp
      · exact Except.noConfusion h

/-- Elimination for a successful `init_pool_and_migrate`: the migrator ran
against the current ledger and the pool carries the options built from the
config. -/
theorem init_pool_and_migrate_ok_elim {migs : List Migration} {config : Config}
    {w : DbWorld} {pool : PgPool} {led : Ledger} {newly : List Nat}
    (h : init_pool_and_migrate migs config w = .ok (pool, led, newly)) :
    runMigrator w.apply_ok migs w.ledger = .ok (led, newly)
    ∧ pool = ⟨{ max_connections := config.db_max_connections
                min_connections := config.db_min_connections
                acquire_timeout_secs := config.db_acquire_timeout_secs
                idle_timeout_secs := some config.db_idle_timeout_secs }⟩ := by
  simp only [init_pool_and_migrate] at h
  split at h
  · exact Except.noConfusion h
  · split at h
    · split at h
      · exact Except.noConfusion h
      · rename_i led0 newly0 heq
        injection h with h2
        injection h2 with hp h3
        injection h3 with hl hn
        subst hp
        subst hl
        subst hn
        exact ⟨heq, rfl⟩
    · exact Except.noConfusion h

/-- Decidable equality for Except results, used to evaluate the embedded
operations on concrete inputs. -/
instance {e a : Type} [DecidableEq e] [DecidableEq a] : DecidableEq (Except e a) :=
  fun x y =>
  match x, y with
  | .ok v, .ok v2 =>
    if h : v = v2 then .isTrue (by rw [h])
    else .isFalse fun he => h (by injection he)
  | .error v, .error v2 =>
    if h : v = v2 then .isTrue (by rw [h])
    else .isFalse fun he => h (by injection he)
  | .ok _, .error _ => .isFalse fun he => Except.noConfusion he
  | .error _, .ok _ => .isFalse fun he => Except.noConfusion he

/- Concrete fixtures used by witnesses and counterexamples. -/

def sUrl : String := "postgres://localhost/app"

def config0 : Config := ⟨sUrl, 3000, 10, 1, 5, 300, 30⟩

def pool0 : PgPool :=
  ⟨{ max_connections := 10
     min_connections := 1
     acquire_timeout_secs := 30
     idle_timeout_secs := some 300 }⟩

def probeFailWorld : QueryWorld := ⟨0, false, 0⟩

def probeOkWorld : QueryWorld := ⟨0, true, 1⟩

/-- C10: every `AppError` value maps to HTTP 500 with a JSON error
envelope holding one of the three fixed messages, and the rendered
response is independent of the wrapped error payload — the body never
incorporates the wrapped message or detail. -/
theorem app_error_response_fixed (e : AppError) :
    (AppError.into_response e).status = 500
    ∧ ((AppError.into_response e).body = jsonErrorBody sDatabaseError
        ∨ (AppError.into_response e).body = jsonErrorBody sConfigurationError
        ∨ (AppError.into_response e).body = jsonErrorBody sInternalServerError)
    ∧ (∀ s s2 : String,
        AppError.into_response (.database s) = AppError.into_response (.database s2)
        ∧ AppError.into_response (.config s) = AppError.into_response (.config s2)
        ∧ AppError.into_response (.internal s) = AppError.into_response (.internal s2)) := by
  cases e with
  | database s => exact ⟨rfl, Or.inl rfl, fun a b => ⟨rfl, rfl, rfl⟩⟩
  | config s => exact ⟨rfl, Or.inr (Or.inl rfl), fun a b => ⟨rfl, rfl, rfl⟩⟩
  | internal s => exact ⟨rfl, Or.inr (Or.inr rfl), fun a b => ⟨rfl, rfl, rfl⟩⟩

/-- C5: `db_ping` succeeds exactly when a connection is acquired within
the acquire timeout the pool was built with and the trivial query then
executes; on success it surfaces only unit, discarding the query result
that the execute call produced. -/
theorem db_ping_succeeds_iff (pool : PgPool) (w : QueryWorld) :
    (db_ping pool w = .ok () ↔
      w.acquire_secs ≤ pool.options.acquire_timeout_secs ∧ w.query_ok = true)
    ∧ (db_ping pool w = .ok () → executeQuery pool w = .ok ⟨w.rows_affected⟩) := by
  by_cases h1 : pool.options.acquire_timeout_secs < w.acquire_secs
  · have hd : db_ping pool w = .error .poolTimedOut := by
      simp [db_ping, executeQuery, h1]
    rw [hd]
    constructor
    · constructor
      · intro h
        exact Except.noConfusion h
      · rintro ⟨ha, -⟩
        exact absurd ha (by omega)
    · intro h
      exact Except.noConfusion h
  · cases hq : w.query_ok
    · have hd : db_ping pool w = .error .queryFailed := by
        simp [db_ping, executeQuery, h1, hq]
      rw [hd]
      refine ⟨⟨fun h => Except.noConfusion h, ?_⟩, fun h => Except.noConfusion h⟩
      rintro ⟨-, hq2⟩
      exact Bool.noConfusion hq2
    · have he : executeQuery pool w = .ok ⟨w.rows_affected⟩ := by
        simp [executeQuery, h1, hq]
      have hd : db_ping pool w = .ok () := by simp [db_ping, he]
      rw [hd]
      exact ⟨⟨fun _ => ⟨Nat.not_lt.mp h1, rfl⟩, fun _ => rfl⟩, fun _ => he⟩

/-- C5 witness: on a concrete pool, the probe succeeds in a world where
the acquire is instant and the query runs, and fails when the query
fails. -/
theorem db_ping_succeeds_iff_witness :
    db_ping pool0 probeOkWorld = .ok ()
    ∧ db_ping pool0 probeFailWorld = .error .queryFailed :=
  ⟨(db_ping_succeeds_iff pool0 probeOkWorld).1.mpr (by decide), by decide⟩

/-- C1 counterexample: with the database probe failing, the health
endpoint of src/main.rs still answers with HTTP status 200 — an OK-class
status, not the non-OK degraded status the claim requires — because the
handler returns a plain string and axum renders every string reply as
status 200. -/
theorem health_failure_status_counterexample :
    executeQuery pool0 probeFailWorld = .error .queryFailed
    ∧ healthEndpoint ⟨pool0⟩ probeFailWorld = ⟨200, sDbConnFailed⟩
    ∧ (healthEndpoint ⟨pool0⟩ probeFailWorld).status = 200 :=
  ⟨rfl, rfl, rfl⟩

/-- C1 (amended): `GET /health` answers 200 with body OK when the probe
succeeds, and still answers status 200 — with the descriptive body
"Database connection failed" — when the probe fails: liveness is
distinguished by the body alone, never by a 5xx status. -/
theorem health_endpoint_body_indicates_liveness (state : AppState) (w : QueryWorld) :
    (db_ping state.pool w = .ok () → healthEndpoint state w = ⟨200, sOK⟩)
    ∧ (∀ e, db_ping state.pool w = .error e →
        healthEndpoint state w = ⟨200, sDbConnFailed⟩) := by
  constructor
  · intro h
    cases hq : executeQuery state.pool w with
    | ok r => simp [healthEndpoint, health_check, strIntoResponse, hq]
    | error e => simp [db_ping, hq] at h
  · intro e h
    cases hq : executeQuery state.pool w with
    | ok r => simp [db_ping, hq] at h
    | error e2 => simp [healthEndpoint, health_check, strIntoResponse, hq]

/-- C1 witness: the amended statement evaluated on a healthy and on a
failing probe world. -/
theorem health_endpoint_body_indicates_liveness_witness :
    db_ping pool0 probeOkWorld = .ok ()
    ∧ healthEndpoint ⟨pool0⟩ probeOkWorld = ⟨200, sOK⟩
    ∧ healthEndpoint ⟨pool0⟩ probeFailWorld = ⟨200, sDbConnFailed⟩ :=
  ⟨by decide,
    (health_endpoint_body_indicates_liveness ⟨pool0⟩ probeOkWorld).1 (by decide),
    (health_endpoint_body_indicates_liveness ⟨pool0⟩ probeFailWorld).2
      .queryFailed (by decide)⟩

def mig1 : Migration := ⟨1, 11⟩

def mig2 : Migration := ⟨2, 22⟩

def migs2 : List Migration := [mig1, mig2]

def freshWorld : DbWorld := ⟨0, true, fun _ => true, ⟨[]⟩⟩

def slowConnectWorld : DbWorld := ⟨10, true, fun _ => true, ⟨[]⟩⟩

/-- C2: when the connect has not completed within
`db_connect_timeout_secs`, `init_pool_and_migrate` returns the timeout
error rather than blocking, and the (spec-modelled) startup built on it
does not proceed to serve HTTP traffic. -/
theorem connect_timeout_aborts_startup (migs : List Migration) (config : Config)
    (w : DbWorld) (h : config.db_connect_timeout_secs < w.connect_secs) :
    init_pool_and_migrate migs config w = .error .timeout
    ∧ startupServes migs config w = false := by
  have h1 : init_pool_and_migrate migs config w = .error .timeout := by
    simp [init_pool_and_migrate, h]
  exact ⟨h1, by simp [startupServes, h1]⟩

/-- C2 witness: a five-second bound against a ten-second connect. -/
theorem connect_timeout_aborts_startup_witness :
    config0.db_connect_timeout_secs < slowConnectWorld.connect_secs
    ∧ (init_pool_and_migrate migs2 config0 slowConnectWorld = .error .timeout
        ∧ startupServes migs2 config0 slowConnectWorld = false) :=
  ⟨by decide, connect_timeout_aborts_startup migs2 config0 slowConnectWorld (by decide)⟩

/-- C9: whenever `init_pool_and_migrate` hands back a pool built from a
Settings value, the pool options carry exactly the configured maximum
connections, minimum idle connections, acquire timeout and idle timeout. -/
theorem pool_options_carry_config (migs : List Migration) (config : Config)
    (w : DbWorld) (pool : PgPool) (led : Ledger) (newly : List Nat)
    (h : init_pool_and_migrate migs config w = .ok (pool, led, newly)) :
    pool.options.max_connections = config.db_max_connections
    ∧ pool.options.min_connections = config.db_min_connections
    ∧ pool.options.acquire_timeout_secs = config.db_acquire_timeout_secs
    ∧ pool.options.idle_timeout_secs = some config.db_idle_timeout_secs := by
  obtain ⟨-, hp⟩ := init_pool_and_migrate_ok_elim h
  rw [hp]
  exact ⟨rfl, rfl, rfl, rfl⟩

/-- C9 witness: a concrete successful startup whose pool carries the
knobs of `config0`. -/
theorem pool_options_carry_config_witness :
    init_pool_and_migrate migs2 config0 freshWorld
      = .ok (⟨⟨10, 1, 30, some 300⟩⟩, ⟨[mig1, mig2]⟩, [1, 2])
    ∧ ((⟨⟨10, 1, 30, some 300⟩⟩ : PgPool).options.max_connections
          = config0.db_max_connections
        ∧ (⟨⟨10, 1, 30, some 300⟩⟩ : PgPool).options.min_connections
          = config0.db_min_connections
        ∧ (⟨⟨10, 1, 30, some 300⟩⟩ : PgPool).options.acquire_timeout_secs
          = config0.db_acquire_timeout_secs
        ∧ (⟨⟨10, 1, 30, some 300⟩⟩ : PgPool).options.idle_timeout_secs
          = some config0.db_idle_timeout_secs) :=
  ⟨by decide,
    pool_options_carry_config migs2 config0 freshWorld ⟨⟨10, 1, 30, some 300⟩⟩
      ⟨[mig1, mig2]⟩ [1, 2] (by decide)⟩

def migratedWorld : DbWorld := ⟨0, true, fun _ => false, ⟨[mig1, mig2]⟩⟩

def env0 : EnvMap := fun k => if k = kDatabaseUrl then some sUrl else none

def mw0 : MainWorld := ⟨freshWorld, true⟩

/-- C4: a second invocation of build-pool-and-migrate against a database
holding exactly the ledger a successful first invocation left behind adds
no ledger entries, reapplies nothing — the second world would fail any
attempted apply — and returns without error. -/
theorem init_pool_and_migrate_idempotent (migs : List Migration)
    (config config2 : Config) (w w2 : DbWorld) (pool : PgPool) (led : Ledger)
    (newly : List Nat)
    (h : init_pool_and_migrate migs config w = .ok (pool, led, newly))
    (hled : w2.ledger = led) (hconn : w2.connect_ok = true)
    (htime : w2.connect_secs ≤ config2.db_connect_timeout_secs) :
    ∃ pool2, init_pool_and_migrate migs config2 w2 = .ok (pool2, led, []) := by
  obtain ⟨hrun, -⟩ := init_pool_and_migrate_ok_elim h
  have hcov : ∀ m ∈ migs, led.covers m :=
    runMigratorFrom_covers w.apply_ok migs w.ledger [] led newly hrun
  have hrun2 : runMigrator w2.apply_ok migs led = .ok (led, []) := by
    have h2 := runMigratorFrom_of_covers w2.apply_ok migs led [] hcov
    simpa [runMigrator] using h2
  have hnl : ¬ (config2.db_connect_timeout_secs < w2.connect_secs) := by omega
  refine ⟨⟨{ max_connections := config2.db_max_connections
             min_connections := config2.db_min_connections
             acquire_timeout_secs := config2.db_acquire_timeout_secs
             idle_timeout_secs := some config2.db_idle_timeout_secs }⟩, ?_⟩
  simp [init_pool_and_migrate, hnl, hconn, hled, hrun2]

/-- C4 witness: a fresh startup applying versions 1 and 2, then a second
startup against the resulting ledger, in a world where any apply would
fail; it succeeds, keeps the ledger and applies nothing. -/
theorem init_pool_and_migrate_idempotent_witness :
    init_pool_and_migrate migs2 config0 freshWorld
      = .ok (⟨⟨10, 1, 30, some 300⟩⟩, ⟨[mig1, mig2]⟩, [1, 2])
    ∧ migratedWorld.ledger = ⟨[mig1, mig2]⟩
    ∧ migratedWorld.connect_ok = true
    ∧ migratedWorld.connect_secs ≤ config0.db_connect_timeout_secs
    ∧ ∃ pool2, init_pool_and_migrate migs2 config0 migratedWorld
        = .ok (pool2, ⟨[mig1, mig2]⟩, []) :=
  ⟨by decide, rfl, rfl, by decide,
    init_pool_and_migrate_idempotent migs2 config0 config0 freshWorld migratedWorld
      ⟨⟨10, 1, 30, some 300⟩⟩ ⟨[mig1, mig2]⟩ [1, 2] (by decide) rfl rfl (by decide)⟩

/-- C3: migrations complete before the pool is handed to any consumer. A
successful `init_pool_and_migrate` returns only with a ledger covering
every embedded migration, the newly applied versions in ascending order
(the embedded list is version-sorted, as `sqlx::migrate!` guarantees);
and a successful `main` reaches bind and serve only after the migration
step, its serving state holding a fully migrated ledger. -/
theorem migrations_precede_pool_handoff (migs : List Migration) (config : Config)
    (w : DbWorld) (env : EnvMap) (mw : MainWorld)
    (hsorted : (migs.map Migration.version).Pairwise (· < ·)) :
    (∀ pool led newly,
        init_pool_and_migrate migs config w = .ok (pool, led, newly) →
          (∀ m ∈ migs, led.covers m) ∧ newly.Pairwise (· < ·))
    ∧ (∀ events s, runMain migs env mw = (events, .ok s) →
        (∀ m ∈ migs, s.ledger.covers m)
          ∧ events = [.loadConfig, .createPool, .runMigrations,
              .bindSocket, .serve]) := by
  constructor
  · intro pool led newly h
    obtain ⟨hrun, -⟩ := init_pool_and_migrate_ok_elim h
    refine ⟨runMigratorFrom_covers w.apply_ok migs w.ledger [] led newly hrun, ?_⟩
    obtain ⟨sub, hs, he⟩ :=
      runMigratorFrom_newly_sublist w.apply_ok migs w.ledger [] led newly hrun
    rw [he]
    simpa using hsorted.sublist hs
  · intro events s h
    simp only [runMain] at h
    cases hc : Config.from_env env with
    | error e => simp [hc] at h
    | ok config1 =>
      simp only [hc] at h
      cases hp : create_pool config1.database_url mw.db with
      | error e => simp [hp] at h
      | ok pool1 =>
        simp only [hp] at h
        cases hr : runMigrator mw.db.apply_ok migs mw.db.ledger with
        | error e => simp [hr] at h
        | ok p =>
          obtain ⟨led1, newly1⟩ := p
          simp only [hr] at h
          cases hb : mw.bind_ok with
          | false => simp [hb] at h
          | true =>
            simp [hb] at h
            obtain ⟨h1, h2⟩ := h
            subst h1
            subst h2
            exact ⟨fun m hm =>
              runMigratorFrom_covers mw.db.apply_ok migs mw.db.ledger []
                led1 newly1 hr m hm, rfl⟩

/-- C3 witness: the sortedness hypothesis and both conclusions evaluated
on the two-migration fixture. -/
theorem migrations_precede_pool_handoff_witness :
    (migs2.map Migration.version).Pairwise (· < ·)
    ∧ ((∀ pool led newly,
          init_pool_and_migrate migs2 config0 freshWorld = .ok (pool, led, newly) →
            (∀ m ∈ migs2, led.covers m) ∧ newly.Pairwise (· < ·))
        ∧ (∀ events s, runMain migs2 env0 mw0 = (events, .ok s) →
            (∀ m ∈ migs2, s.ledger.covers m)
              ∧ events = [.loadConfig, .createPool, .runMigrations,
                  .bindSocket, .serve])) :=
  ⟨by decide,
    migrations_precede_pool_handoff migs2 config0 freshWorld env0 mw0 (by decide)⟩

def envNone : EnvMap := fun _ => none

def sEmpty : String := ""

def envEmptyUrl : EnvMap := fun k => if k = kDatabaseUrl then some sEmpty else none

def emptyUrlConfig : Config := ⟨sEmpty, 3000, 10, 1, 5, 300, 30⟩

def cFromEnv0 : Config := ⟨sUrl, 3000, 10, 1, 5, 300, 30⟩

def s8080 : String := "8080"

def env8080 : EnvMap := fun k =>
  if k = kDatabaseUrl then some sUrl
  else if k = kServerPort then some s8080
  else none

/-- C6: with `DATABASE_URL` unset, configuration loading returns an error,
`main` fails in the configuration phase with a non-zero exit status, and
neither pool creation nor socket binding is ever reached. -/
theorem missing_database_url_fails_startup (migs : List Migration) (env : EnvMap)
    (w : MainWorld) (h : env kDatabaseUrl = none) :
    Config.from_env env = .error .notPresent
    ∧ (runMain migs env w).2 = .error .configPhase
    ∧ exitCode (runMain migs env w).2 = 1
    ∧ Event.createPool ∉ (runMain migs env w).1
    ∧ Event.bindSocket ∉ (runMain migs env w).1 := by
  have hc : Config.from_env env = .error .notPresent := by
    simp [Config.from_env, h]
  have hm : runMain migs env w = ([.loadConfig], .error .configPhase) := by
    simp [runMain, hc]
  rw [hm]
  exact ⟨hc, rfl, rfl, by decide, by decide⟩

/-- C6 witness: the empty environment. -/
theorem missing_database_url_fails_startup_witness :
    envNone kDatabaseUrl = none
    ∧ (Config.from_env envNone = .error .notPresent
        ∧ (runMain migs2 envNone mw0).2 = .error .configPhase
        ∧ exitCode (runMain migs2 envNone mw0).2 = 1
        ∧ Event.createPool ∉ (runMain migs2 envNone mw0).1
        ∧ Event.bindSocket ∉ (runMain migs2 envNone mw0).1) :=
  ⟨rfl, missing_database_url_fails_startup migs2 envNone mw0 rfl⟩

/-- C7 counterexample: setting `DATABASE_URL` to the empty string makes
configuration loading succeed with an empty connection string, so the
claimed non-emptiness invariant fails — `env::var` distinguishes only
unset from set, not empty from non-empty. -/
theorem config_empty_database_url_counterexample :
    Config.from_env envEmptyUrl = .ok emptyUrlConfig
    ∧ emptyUrlConfig.database_url.length = 0 :=
  ⟨by decide, rfl⟩

/-- C7 (amended): every Settings value produced by configuration loading
carries exactly the string the environment holds under `DATABASE_URL` —
the variable must be present, but its value may be empty; the record is a
pure function of the environment, created once and never mutated in the
embedding. -/
theorem config_database_url_mirrors_env (env : EnvMap) (c : Config)
    (h : Config.from_env env = .ok c) :
    env kDatabaseUrl = some c.database_url := by
  unfold Config.from_env at h
  cases he : env kDatabaseUrl with
  | none =>
    rw [he] at h
    exact Except.noConfusion h
  | some u =>
    simp only [he] at h
    injection h with h2
    rw [← h2]

/-- C7 amended-claim witness: a concrete environment and the Settings it
produces. -/
theorem config_database_url_mirrors_env_witness :
    Config.from_env env0 = .ok cFromEnv0
    ∧ env0 kDatabaseUrl = some cFromEnv0.database_url :=
  ⟨by decide, config_database_url_mirrors_env env0 cFromEnv0 (by decide)⟩

theorem optValue_env_none {env : EnvMap} {key : String} (dfltStr : String)
    (bound dfltN : Nat) (h : env key = none) :
    optValue env key dfltStr bound dfltN
      = (parseBounded bound dfltStr).getD dfltN := by
  simp [optValue, h]

theorem optValue_parse_none {env : EnvMap} {key s : String} (dfltStr : String)
    {bound : Nat} (dfltN : Nat) (h : env key = some s)
    (hp : parseBounded bound s = none) :
    optValue env key dfltStr bound dfltN = dfltN := by
  simp [optValue, h, hp]

theorem optValue_parse_some {env : EnvMap} {key s : String} (dfltStr : String)
    {bound : Nat} (dfltN : Nat) {n : Nat} (h : env key = some s)
    (hp : parseBounded bound s = some n) :
    optValue env key dfltStr bound dfltN = n := by
  simp [optValue, h, hp]

/-- C8: whenever `DATABASE_URL` is present, loading succeeds, and each
optional field takes its documented default when its variable is absent or
does not parse within its integer width, and takes exactly the parsed
value when it does — with `SERVER_PORT=8080` yielding port 8080. -/
theorem optional_config_fields (env : EnvMap) (url : String)
    (h : env kDatabaseUrl = some url) :
    ∃ c, Config.from_env env = .ok c
      ∧ c.database_url = url
      ∧ ((env kServerPort = none → c.server_port = 3000)
        ∧ (∀ s, env kServerPort = some s → parseBounded u16Max s = none →
            c.server_port = 3000)
        ∧ (∀ s n, env kServerPort = some s → parseBounded u16Max s = some n →
            c.server_port = n)
        ∧ (env kServerPort = some s8080 → c.server_port = 8080))
      ∧ ((env kDbMaxConnections = none → c.db_max_connections = 10)
        ∧ (∀ s, env kDbMaxConnections = some s → parseBounded u32Max s = none →
            c.db_max_connections = 10)
        ∧ (∀ s n, env kDbMaxConnections = some s →
            parseBounded u32Max s = some n → c.db_max_connections = n))
      ∧ ((env kDbMinConnections = none → c.db_min_connections = 1)
        ∧ (∀ s, env kDbMinConnections = some s → parseBounded u32Max s = none →
            c.db_min_connections = 1)
        ∧ (∀ s n, env kDbMinConnections = some s →
            parseBounded u32Max s = some n → c.db_min_connections = n))
      ∧ ((env kDbConnectTimeoutSecs = none → c.db_connect_timeout_secs = 5)
        ∧ (∀ s, env kDbConnectTimeoutSecs = some s →
            parseBounded u64Max s = none → c.db_connect_timeout_secs = 5)
        ∧ (∀ s n, env kDbConnectTimeoutSecs = some s →
            parseBounded u64Max s = some n → c.db_connect_timeout_secs = n))
      ∧ ((env kDbIdleTimeoutSecs = none → c.db_idle_timeout_secs = 300)
        ∧ (∀ s, env kDbIdleTimeoutSecs = some s →
            parseBounded u64Max s = none → c.db_idle_timeout_secs = 300)
        ∧ (∀ s n, env kDbIdleTimeoutSecs = some s →
            parseBounded u64Max s = some n → c.db_idle_timeout_secs = n))
      ∧ ((env kDbAcquireTimeoutSecs = none → c.db_acquire_timeout_secs = 30)
        ∧ (∀ s, env kDbAcquireTimeoutSecs = some s →
            parseBounded u64Max s = none → c.db_acquire_timeout_secs = 30)
        ∧ (∀ s n, env kDbAcquireTimeoutSecs = some s →
            parseBounded u64Max s = some n → c.db_acquire_timeout_secs = n)) := by
  refine ⟨{ database_url := url
            server_port := optValue env kServerPort d3000 u16Max 3000
            db_max_connections := optValue env kDbMaxConnections d10 u32Max 10
            db_min_connections := optValue env kDbMinConnections d1 u32Max 1
            db_connect_timeout_secs := optValue env kDbConnectTimeoutSecs d5 u64Max 5
            db_idle_timeout_secs := optValue env kDbIdleTimeoutSecs d300 u64Max 300
            db_acquire_timeout_secs :=
              optValue env kDbAcquireTimeoutSecs d30 u64Max 30 },
    by simp [Config.from_env, h], rfl, ?_, ?_, ?_, ?_, ?_, ?_⟩
  · refine ⟨fun hn => (optValue_env_none d3000 u16Max 3000 hn).trans (by decide),
      fun s hs hp => optValue_parse_none d3000 3000 hs hp,
      fun s n hs hp => optValue_parse_some d3000 3000 hs hp,
      fun h8 => optValue_parse_some d3000 3000 h8
        ((by decide : parseBounded u16Max s8080 = some 8080))⟩
  · exact ⟨fun hn => (optValue_env_none d10 u32Max 10 hn).trans (by decide),
      fun s hs hp => optValue_parse_none d10 10 hs hp,
      fun s n hs hp => optValue_parse_some d10 10 hs hp⟩
  · exact ⟨fun hn => (optValue_env_none d1 u32Max 1 hn).trans (by decide),
      fun s hs hp => optValue_parse_none d1 1 hs hp,
      fun s n hs hp => optValue_parse_some d1 1 hs hp⟩
  · exact ⟨fun hn => (optValue_env_none d5 u64Max 5 hn).trans (by decide),
      fun s hs hp => optValue_parse_none d5 5 hs hp,
      fun s n hs hp => optValue_parse_some d5 5 hs hp⟩
  · exact ⟨fun hn => (optValue_env_none d300 u64Max 300 hn).trans (by decide),
      fun s hs hp => optValue_parse_none d300 300 hs hp,
      fun s n hs hp => optValue_parse_some d300 300 hs hp⟩
  · exact ⟨fun hn => (optValue_env_none d30 u64Max 30 hn).trans (by decide),
      fun s hs hp => optValue_parse_none d30 30 hs hp,
      fun s n hs hp => optValue_parse_some d30 30 hs hp⟩

/-- C8 witness: with only `DATABASE_URL` set every optional field takes
its default, and `SERVER_PORT=8080` yields port 8080. -/
theorem optional_config_fields_witness :
    env0 kDatabaseUrl = some sUrl
    ∧ (∃ c, Config.from_env env0 = .ok c ∧ c.server_port = 3000)
    ∧ (∃ c, Config.from_env env8080 = .ok c ∧ c.server_port = 8080) := by
  refine ⟨by decide, ?_, ?_⟩
  · obtain ⟨c, hc, -, hsp, -⟩ := optional_config_fields env0 sUrl (by decide)
    exact ⟨c, hc, hsp.1 (by decide)⟩
  · obtain ⟨c, hc, -, hsp, -⟩ := optional_config_fields env8080 sUrl (by decide)
    exact ⟨c, hc, hsp.2.2.2 (by decide)⟩
